import Mathlib

/-!
Shallow embedding of the batched Privacy Pass server:
src/batched_tokens/mod.rs (wire codec) and src/batched_tokens/server.rs
(issuance and redemption engine).

Bytes are modelled as lists of natural numbers.  Machine-width constraints
of the Rust types (u8, u16 length headers, fixed 32- and 64-byte arrays)
appear as explicit well-formedness predicates.  The external VOPRF
primitive library, the key store and the nonce store are abstract
parameters, exactly as the spec declares them external collaborators.
-/

namespace PrivacyPass

abbrev Bytes := List Nat

/-- Modelled from the spec: `TokenType` is declared outside the shown
sources (the shown files only consume it).  Per the spec it is a small
closed enumeration tagged by a 16-bit code of which this server accepts
exactly the Batched variant, code 0xF91A (= 63770); the remaining
Privacy Pass protocol variants carry distinct 16-bit codes. -/
inductive TokenType where
  | Private
  | Public
  | Batched
deriving DecidableEq

def TokenType.code : TokenType → Nat
  | .Private => 1
  | .Public => 2
  | .Batched => 63770

/-- Modelled from the spec: decoding the 16-bit tag of the closed
enumeration; any code outside the enumeration fails. -/
def TokenType.fromCode (c : Nat) : Option TokenType :=
  if c = 1 then some .Private
  else if c = 2 then some .Public
  else if c = 63770 then some .Batched
  else none

/-- Big-endian encoding of a 16-bit length or tag, as written by the TLS
codec library (two bytes, most significant first). -/
def u16Bytes (n : Nat) : Bytes := [n / 256 % 256, n % 256]

/-- Reading a big-endian 16-bit value from the stream. -/
def readU16 : Bytes → Option (Nat × Bytes)
  | b0 :: b1 :: rest => some (b0 * 256 + b1, rest)
  | _ => none

/-- Reading a single byte (u8) from the stream. -/
def readU8 : Bytes → Option (Nat × Bytes)
  | b :: rest => some (b, rest)
  | _ => none

/-- The `read_exact` primitive: take exactly `n` bytes or fail. -/
def readExact (n : Nat) (bs : Bytes) : Option (Bytes × Bytes) :=
  if n ≤ bs.length then some (bs.take n, bs.drop n) else none

def TokenType.tlsSerializedLen (_ : TokenType) : Nat := 2

def TokenType.tlsSerialize (t : TokenType) : Bytes := u16Bytes t.code

def TokenType.tlsDeserialize (bs : Bytes) : Option (TokenType × Bytes) :=
  match readU16 bs with
  | some (c, rest) =>
    match TokenType.fromCode c with
    | some t => some (t, rest)
    | none => none
  | none => none

/-- Wire struct from mod.rs: a fixed 32-byte blinded group element. -/
structure BlindedElement where
  blinded_element : Bytes
deriving DecidableEq

/-- The Rust type invariant of `[u8; 32]`. -/
def BlindedElement.wf (e : BlindedElement) : Prop :=
  e.blinded_element.length = 32 ∧ ∀ b ∈ e.blinded_element, b < 256

instance : DecidablePred BlindedElement.wf := fun e =>
  inferInstanceAs (Decidable (_ ∧ _))

def BlindedElement.tlsSerializedLen (_ : BlindedElement) : Nat := 32

def BlindedElement.tlsSerialize (e : BlindedElement) : Bytes :=
  e.blinded_element

def BlindedElement.tlsDeserialize (bs : Bytes) : Option (BlindedElement × Bytes) :=
  match readExact 32 bs with
  | some (chunk, rest) => some (⟨chunk⟩, rest)
  | none => none

/-- Wire struct from mod.rs: a fixed 32-byte evaluated group element. -/
structure EvaluatedElement where
  evaluated_element : Bytes
deriving DecidableEq

/-- The Rust type invariant of `[u8; 32]`. -/
def EvaluatedElement.wf (e : EvaluatedElement) : Prop :=
  e.evaluated_element.length = 32 ∧ ∀ b ∈ e.evaluated_element, b < 256

instance : DecidablePred EvaluatedElement.wf := fun e =>
  inferInstanceAs (Decidable (_ ∧ _))

def EvaluatedElement.tlsSerializedLen (_ : EvaluatedElement) : Nat := 32

def EvaluatedElement.tlsSerialize (e : EvaluatedElement) : Bytes :=
  e.evaluated_element

def EvaluatedElement.tlsDeserialize (bs : Bytes) : Option (EvaluatedElement × Bytes) :=
  match readExact 32 bs with
  | some (chunk, rest) => some (⟨chunk⟩, rest)
  | none => none

/-- TlsVecU16 serialization as done by the TLS codec library: a 16-bit
big-endian byte-length header (computed from the elements' serialized
lengths, and rejected if it does not fit in 16 bits), then the serialized
elements in order. -/
def tlsVecU16SerializeB (elems : List BlindedElement) : Option Bytes :=
  let len := (elems.map BlindedElement.tlsSerializedLen).sum
  if len ≤ 65535 then
    some (u16Bytes len ++ (elems.map BlindedElement.tlsSerialize).flatten)
  else none

def tlsVecU16SerializeE (elems : List EvaluatedElement) : Option Bytes :=
  let len := (elems.map EvaluatedElement.tlsSerializedLen).sum
  if len ≤ 65535 then
    some (u16Bytes len ++ (elems.map EvaluatedElement.tlsSerialize).flatten)
  else none

/-- The TLS codec read loop for a TlsVecU16 of 32-byte elements: elements
are read from the stream until the declared byte length is covered; each
element consumes exactly its 32-byte serialized length, so the loop runs
for ceil(len / 32) iterations. -/
def blindedLoopN : Nat → Bytes → Option (List BlindedElement × Bytes)
  | 0, bs => some ([], bs)
  | n + 1, bs =>
    match BlindedElement.tlsDeserialize bs with
    | none => none
    | some (e, rest) =>
      match blindedLoopN n rest with
      | none => none
      | some (es, rest2) => some (e :: es, rest2)

def evaluatedLoopN : Nat → Bytes → Option (List EvaluatedElement × Bytes)
  | 0, bs => some ([], bs)
  | n + 1, bs =>
    match EvaluatedElement.tlsDeserialize bs with
    | none => none
    | some (e, rest) =>
      match evaluatedLoopN n rest with
      | none => none
      | some (es, rest2) => some (e :: es, rest2)

def tlsVecU16DeserializeB (bs : Bytes) : Option (List BlindedElement × Bytes) :=
  match readU16 bs with
  | some (len, rest) => blindedLoopN ((len + 31) / 32) rest
  | none => none

def tlsVecU16DeserializeE (bs : Bytes) : Option (List EvaluatedElement × Bytes) :=
  match readU16 bs with
  | some (len, rest) => evaluatedLoopN ((len + 31) / 32) rest
  | none => none

/-- Wire struct from mod.rs: token type tag, key id, and a TlsVecU16 of
blinded elements. -/
structure TokenRequest where
  token_type : TokenType
  token_key_id : Nat
  blinded_elements : List BlindedElement
deriving DecidableEq

/-- Rust representability: the key id is a u8 and every element is a
well-formed 32-byte array. -/
def TokenRequest.wf (req : TokenRequest) : Prop :=
  req.token_key_id < 256 ∧ ∀ e ∈ req.blinded_elements, e.wf

instance : DecidablePred TokenRequest.wf := fun req =>
  inferInstanceAs (Decidable (_ ∧ _))

/-- The Size impl for TokenRequest from mod.rs, verbatim: the token type
length, plus the key id length, plus the sum of the elements' lengths
obtained by iterating over the vector's elements (note: this sum does not
include the vector's own 2-byte length header). -/
def TokenRequest.tlsSerializedLen (req : TokenRequest) : Nat :=
  req.token_type.tlsSerializedLen + 1
    + (req.blinded_elements.map BlindedElement.tlsSerializedLen).sum

/-- The Serialize impl for TokenRequest from mod.rs: token type, key id,
then the TlsVecU16 of blinded elements (which writes its 2-byte length
header). -/
def TokenRequest.tlsSerialize (req : TokenRequest) : Option Bytes :=
  match tlsVecU16SerializeB req.blinded_elements with
  | some vecBytes =>
    some (req.token_type.tlsSerialize ++ [req.token_key_id] ++ vecBytes)
  | none => none

def TokenRequest.tlsDeserialize (bs : Bytes) : Option (TokenRequest × Bytes) :=
  match TokenType.tlsDeserialize bs with
  | none => none
  | some (token_type, r1) =>
    match readU8 r1 with
    | none => none
    | some (token_key_id, r2) =>
      match tlsVecU16DeserializeB r2 with
      | none => none
      | some (blinded_elements, r3) =>
        some (⟨token_type, token_key_id, blinded_elements⟩, r3)

/-- Wire struct from mod.rs: a TlsVecU16 of evaluated elements and a
fixed 64-byte batch proof. -/
structure TokenResponse where
  evaluated_elements : List EvaluatedElement
  evaluated_proof : Bytes
deriving DecidableEq

/-- Rust representability: well-formed 32-byte elements and a 64-byte
proof array. -/
def TokenResponse.wf (resp : TokenResponse) : Prop :=
  (∀ e ∈ resp.evaluated_elements, e.wf)
    ∧ resp.evaluated_proof.length = 64
    ∧ ∀ b ∈ resp.evaluated_proof, b < 256

instance : DecidablePred TokenResponse.wf := fun resp =>
  inferInstanceAs (Decidable (_ ∧ _))

/-- The Size impl for TokenResponse from mod.rs: the vector's own length
(header included) plus the 64-byte proof. -/
def TokenResponse.tlsSerializedLen (resp : TokenResponse) : Nat :=
  (2 + (resp.evaluated_elements.map EvaluatedElement.tlsSerializedLen).sum) + 64

def TokenResponse.tlsSerialize (resp : TokenResponse) : Option Bytes :=
  match tlsVecU16SerializeE resp.evaluated_elements with
  | some vecBytes => some (vecBytes ++ resp.evaluated_proof)
  | none => none

def TokenResponse.tlsDeserialize (bs : Bytes) : Option (TokenResponse × Bytes) :=
  match tlsVecU16DeserializeE bs with
  | none => none
  | some (evaluated_elements, rest) =>
    match readExact 64 rest with
    | none => none
    | some (evaluated_proof, rest2) =>
      some (⟨evaluated_elements, evaluated_proof⟩, rest2)

inductive SerializationError where
  | InvalidData
deriving DecidableEq

/-- TokenResponse::try_from_bytes from mod.rs: run tls_deserialize on the
slice and map any failure to InvalidData.  The remaining suffix of the
slice is not inspected. -/
def TokenResponse.tryFromBytes (bs : Bytes) : Except SerializationError TokenResponse :=
  match TokenResponse.tlsDeserialize bs with
  | some (resp, _) => Except.ok resp
  | none => Except.error SerializationError.InvalidData

/-! Server engine from server.rs. -/

inductive IssueTokenResponseError where
  | KeyIdNotFound
  | InvalidTokenRequest
  | InvalidTokenType
deriving DecidableEq

inductive RedeemTokenError where
  | KeyIdNotFound
  | DoubleSpending
  | InvalidToken
deriving DecidableEq

/-- Modelled from the spec: the redemption Token is defined by a
collaborator module and consumed here.  It carries the token type tag, a
client-chosen nonce (a byte vector that must parse into the fixed 32-byte
nonce), a challenge digest, the key id, and an authenticator whose length
must equal the ciphersuite hash output size. -/
structure Token where
  token_type : TokenType
  nonce : Bytes
  challenge_digest : Bytes
  token_key_id : Nat
  authenticator : Bytes
deriving DecidableEq

/-- Modelled from the spec: TokenInput, the derived pre-image the keypair
evaluates, built from (token_type, nonce, context = challenge_digest,
key_id); its canonical serialization lives in a collaborator module and is
abstracted below. -/
structure TokenInput where
  token_type : TokenType
  nonce : Bytes
  context : Bytes
  key_id : Nat
deriving DecidableEq

/-- Modelled from the spec: the external VOPRF primitive library and the
ciphersuite parameterization, consumed but not reimplemented.  `Key` is
the abstract keypair type held by the key store.  `Blinded` is the
primitive library's internal blinded-element representation.
`deserializeBlindedElem` parses a 32-byte wire encoding into it (failing
off-curve).  `batchBlindEvaluate` is the prepare/finish batch evaluation
(randomness absorbed), yielding one serialized evaluated element per
input plus one serialized aggregate proof, or failing.  `evaluate` is the
server-side direct (non-blind) evaluation used at redemption.
`serializeTokenInput` is the collaborator-defined canonical TokenInput
serialization. -/
structure CipherSuite (Key Blinded : Type) where
  hashOutputSize : Nat
  deserializeBlindedElem : Bytes → Option Blinded
  batchBlindEvaluate : Key → List Blinded → Option (List Bytes × Bytes)
  evaluate : Key → Bytes → Option Bytes
  serializeTokenInput : TokenInput → Bytes

/-- One interaction with the pluggable stores, in the order the server
performs them: a key store get, a key store insert, a nonce existence
check, or a nonce insertion. -/
inductive StoreEvent (Key : Type) where
  | getKey (id : Nat)
  | insertKey (id : Nat) (k : Key)
  | nonceExists (n : Bytes)
  | nonceInsert (n : Bytes)

/-- Modelled from the spec: the two pluggable stores, as their interface
contracts describe them.  The key store maps an 8-bit key id to a keypair;
the nonce store is the set of spent nonces (exists = membership,
insert = adjoin). -/
structure ServerState (Key : Type) where
  keyStore : Nat → Option Key
  nonceStore : List Bytes

def applyEvent {Key : Type} (st : ServerState Key) : StoreEvent Key → ServerState Key
  | .getKey _ => st
  | .insertKey id k =>
    { st with keyStore := fun i => if i = id then some k else st.keyStore i }
  | .nonceExists _ => st
  | .nonceInsert n => { st with nonceStore := n :: st.nonceStore }

def applyEvents {Key : Type} (st : ServerState Key) (evs : List (StoreEvent Key)) :
    ServerState Key :=
  evs.foldl applyEvent st

/-- The for-loop in issue_token_response deserializing every blinded
element, returning InvalidTokenRequest (here: none) on the first parse
failure. -/
def deserializeAllBlinded {Key Blinded : Type} (cs : CipherSuite Key Blinded) :
    List BlindedElement → Option (List Blinded)
  | [] => some []
  | e :: es =>
    match cs.deserializeBlindedElem e.blinded_element with
    | none => none
    | some b =>
      match deserializeAllBlinded cs es with
      | none => none
      | some bs => some (b :: bs)

/-- Server::issue_token_response from server.rs.  The outer value is
`none` exactly when the `assert_eq!(token_request.token_type,
TokenType::Batched)` on the path past the guard would panic; otherwise it
is the returned Result paired with the trace of store interactions the
call performed. -/
def issueTokenResponse {Key Blinded : Type} (cs : CipherSuite Key Blinded)
    (keyStore : Nat → Option Key) (token_request : TokenRequest) :
    Option (Except IssueTokenResponseError TokenResponse × List (StoreEvent Key)) :=
  if token_request.token_type ≠ TokenType.Batched then
    some (Except.error IssueTokenResponseError.InvalidTokenType, [])
  else if token_request.token_type = TokenType.Batched then
    match keyStore token_request.token_key_id with
    | none =>
      some (Except.error IssueTokenResponseError.KeyIdNotFound,
        [StoreEvent.getKey token_request.token_key_id])
    | some server =>
      match deserializeAllBlinded cs token_request.blinded_elements with
      | none =>
        some (Except.error IssueTokenResponseError.InvalidTokenRequest,
          [StoreEvent.getKey token_request.token_key_id])
      | some blinded_elements =>
        match cs.batchBlindEvaluate server blinded_elements with
        | none =>
          some (Except.error IssueTokenResponseError.InvalidTokenRequest,
            [StoreEvent.getKey token_request.token_key_id])
        | some (messages, proof) =>
          some (Except.ok
            ⟨messages.map fun m => EvaluatedElement.mk m, proof⟩,
            [StoreEvent.getKey token_request.token_key_id])
  else none

/-- Server::redeem_token from server.rs: the returned Result paired with
the trace of store interactions the call performed, in program order
(nonce existence check, key store get, nonce insertion on success). -/
def redeemToken {Key Blinded : Type} (cs : CipherSuite Key Blinded)
    (st : ServerState Key) (token : Token) :
    Except RedeemTokenError Unit × List (StoreEvent Key) :=
  if token.token_type ≠ TokenType.Batched then
    (Except.error RedeemTokenError.InvalidToken, [])
  else if token.authenticator.length ≠ cs.hashOutputSize then
    (Except.error RedeemTokenError.InvalidToken, [])
  else if token.nonce.length = 32 then
    if token.nonce ∈ st.nonceStore then
      (Except.error RedeemTokenError.DoubleSpending,
        [StoreEvent.nonceExists token.nonce])
    else
      let token_input : TokenInput :=
        ⟨token.token_type, token.nonce, token.challenge_digest, token.token_key_id⟩
      match st.keyStore token.token_key_id with
      | none =>
        (Except.error RedeemTokenError.KeyIdNotFound,
          [StoreEvent.nonceExists token.nonce, StoreEvent.getKey token.token_key_id])
      | some server =>
        match cs.evaluate server (cs.serializeTokenInput token_input) with
        | none =>
          (Except.error RedeemTokenError.InvalidToken,
            [StoreEvent.nonceExists token.nonce, StoreEvent.getKey token.token_key_id])
        | some token_authenticator =>
          if token.authenticator = token_authenticator then
            (Except.ok (),
              [StoreEvent.nonceExists token.nonce,
                StoreEvent.getKey token.token_key_id,
                StoreEvent.nonceInsert token.nonce])
          else
            (Except.error RedeemTokenError.InvalidToken,
              [StoreEvent.nonceExists token.nonce, StoreEvent.getKey token.token_key_id])
  else
    (Except.error RedeemTokenError.InvalidToken, [])

/-- A redemption call together with the store state it leaves behind. -/
def redeemStep {Key Blinded : Type} (cs : CipherSuite Key Blinded)
    (st : ServerState Key) (token : Token) :
    Except RedeemTokenError Unit × ServerState Key :=
  let out := redeemToken cs st token
  (out.1, applyEvents st out.2)

/-- A sequence of redemption calls, each applied to the state the
previous one left behind. -/
def redeemMany {Key Blinded : Type} (cs : CipherSuite Key Blinded)
    (st : ServerState Key) (tokens : List Token) : ServerState Key :=
  tokens.foldl (fun s t => (redeemStep cs s t).2) st

/-! Codec lemmas. -/

lemma readU16_u16Bytes (n : Nat) (rest : Bytes) (h : n < 65536) :
    readU16 (u16Bytes n ++ rest) = some (n, rest) := by
  simp only [u16Bytes, List.cons_append, List.nil_append, readU16, Option.some.injEq,
    Prod.mk.injEq, and_true]
  omega

lemma tokenType_deserialize_serialize (t : TokenType) (rest : Bytes) :
    TokenType.tlsDeserialize (TokenType.tlsSerialize t ++ rest) = some (t, rest) := by
  cases t <;> rfl

lemma readExact_append (l r : Bytes) (n : Nat) (h : l.length = n) :
    readExact n (l ++ r) = some (l, r) := by
  subst h
  simp [readExact, List.take_left, List.drop_left]

lemma blindedElem_deserialize_append (e : BlindedElement) (r : Bytes)
    (h : e.blinded_element.length = 32) :
    BlindedElement.tlsDeserialize (e.blinded_element ++ r) = some (e, r) := by
  cases e with
  | mk l => simp [BlindedElement.tlsDeserialize, readExact_append l r 32 h]

lemma evaluatedElem_deserialize_append (e : EvaluatedElement) (r : Bytes)
    (h : e.evaluated_element.length = 32) :
    EvaluatedElement.tlsDeserialize (e.evaluated_element ++ r) = some (e, r) := by
  cases e with
  | mk l => simp [EvaluatedElement.tlsDeserialize, readExact_append l r 32 h]

lemma blindedLoopN_append (elems : List BlindedElement) (r : Bytes)
    (h : ∀ e ∈ elems, e.blinded_element.length = 32) :
    blindedLoopN elems.length ((elems.map BlindedElement.tlsSerialize).flatten ++ r)
      = some (elems, r) := by
  induction elems with
  | nil => simp [blindedLoopN]
  | cons e es ih =>
    have he : e.blinded_element.length = 32 := h e (by simp)
    have hes : ∀ x ∈ es, x.blinded_element.length = 32 := fun x hx => h x (by simp [hx])
    simp only [List.map_cons, List.flatten_cons, List.length_cons, List.append_assoc,
      blindedLoopN, BlindedElement.tlsSerialize]
    rw [blindedElem_deserialize_append e _ he]
    dsimp only
    rw [ih hes]

lemma evaluatedLoopN_append (elems : List EvaluatedElement) (r : Bytes)
    (h : ∀ e ∈ elems, e.evaluated_element.length = 32) :
    evaluatedLoopN elems.length ((elems.map EvaluatedElement.tlsSerialize).flatten ++ r)
      = some (elems, r) := by
  induction elems with
  | nil => simp [evaluatedLoopN]
  | cons e es ih =>
    have he : e.evaluated_element.length = 32 := h e (by simp)
    have hes : ∀ x ∈ es, x.evaluated_element.length = 32 := fun x hx => h x (by simp [hx])
    simp only [List.map_cons, List.flatten_cons, List.length_cons, List.append_assoc,
      evaluatedLoopN, EvaluatedElement.tlsSerialize]
    rw [evaluatedElem_deserialize_append e _ he]
    dsimp only
    rw [ih hes]

lemma sum_lens_blinded (es : List BlindedElement) :
    (es.map BlindedElement.tlsSerializedLen).sum = 32 * es.length := by
  induction es with
  | nil => simp
  | cons e es ih => simp [BlindedElement.tlsSerializedLen, ih]; ring

lemma sum_lens_evaluated (es : List EvaluatedElement) :
    (es.map EvaluatedElement.tlsSerializedLen).sum = 32 * es.length := by
  induction es with
  | nil => simp
  | cons e es ih => simp [EvaluatedElement.tlsSerializedLen, ih]; ring

lemma tlsVecU16B_deserialize_append (elems : List BlindedElement) (bs r : Bytes)
    (h32 : ∀ e ∈ elems, e.blinded_element.length = 32)
    (hs : tlsVecU16SerializeB elems = some bs) :
    tlsVecU16DeserializeB (bs ++ r) = some (elems, r) := by
  simp only [tlsVecU16SerializeB, sum_lens_blinded] at hs
  by_cases hle : 32 * elems.length ≤ 65535
  · rw [if_pos hle] at hs
    cases hs
    rw [tlsVecU16DeserializeB, List.append_assoc,
      readU16_u16Bytes _ _ (by omega)]
    dsimp only
    have hcount : (32 * elems.length + 31) / 32 = elems.length := by omega
    rw [hcount, blindedLoopN_append elems r h32]
  · rw [if_neg hle] at hs
    exact absurd hs (by simp)

lemma tlsVecU16E_deserialize_append (elems : List EvaluatedElement) (bs r : Bytes)
    (h32 : ∀ e ∈ elems, e.evaluated_element.length = 32)
    (hs : tlsVecU16SerializeE elems = some bs) :
    tlsVecU16DeserializeE (bs ++ r) = some (elems, r) := by
  simp only [tlsVecU16SerializeE, sum_lens_evaluated] at hs
  by_cases hle : 32 * elems.length ≤ 65535
  · rw [if_pos hle] at hs
    cases hs
    rw [tlsVecU16DeserializeE, List.append_assoc,
      readU16_u16Bytes _ _ (by omega)]
    dsimp only
    have hcount : (32 * elems.length + 31) / 32 = elems.length := by omega
    rw [hcount, evaluatedLoopN_append elems r h32]
  · rw [if_neg hle] at hs
    exact absurd hs (by simp)

lemma tokenRequest_deserialize_append (req : TokenRequest) (bs r : Bytes)
    (hw : req.wf) (hs : TokenRequest.tlsSerialize req = some bs) :
    TokenRequest.tlsDeserialize (bs ++ r) = some (req, r) := by
  obtain ⟨hkid, helems⟩ := hw
  cases req with
  | mk tt kid elems =>
    rw [TokenRequest.tlsSerialize] at hs
    cases hv : tlsVecU16SerializeB elems with
    | none => rw [hv] at hs; exact absurd hs (by simp)
    | some vecBytes =>
      rw [hv] at hs
      cases hs
      rw [TokenRequest.tlsDeserialize]
      simp only [List.append_assoc]
      rw [tokenType_deserialize_serialize]
      simp only [List.cons_append, List.nil_append, readU8]
      rw [tlsVecU16B_deserialize_append elems vecBytes r
        (fun e he => (helems e he).1) hv]

lemma tokenResponse_deserialize_append (resp : TokenResponse) (bs r : Bytes)
    (hw : resp.wf) (hs : TokenResponse.tlsSerialize resp = some bs) :
    TokenResponse.tlsDeserialize (bs ++ r) = some (resp, r) := by
  obtain ⟨helems, hplen, _⟩ := hw
  cases resp with
  | mk elems proof =>
    rw [TokenResponse.tlsSerialize] at hs
    cases hv : tlsVecU16SerializeE elems with
    | none => rw [hv] at hs; exact absurd hs (by simp)
    | some vecBytes =>
      rw [hv] at hs
      cases hs
      rw [TokenResponse.tlsDeserialize]
      rw [List.append_assoc,
        tlsVecU16E_deserialize_append elems vecBytes (proof ++ r)
          (fun e he => (helems e he).1) hv]
      dsimp only
      rw [readExact_append proof r 64 hplen]

/-! Server lemmas. -/

lemma issueTokenResponse_shape {Key Blinded : Type} (cs : CipherSuite Key Blinded)
    (ks : Nat → Option Key) (req : TokenRequest) :
    ∃ out, issueTokenResponse cs ks req = some out ∧
      (out.2 = [] ∨ out.2 = [StoreEvent.getKey req.token_key_id]) := by
  unfold issueTokenResponse
  split
  · exact ⟨_, rfl, Or.inl rfl⟩
  · split
    · split
      · exact ⟨_, rfl, Or.inr rfl⟩
      · split
        · exact ⟨_, rfl, Or.inr rfl⟩
        · split
          · exact ⟨_, rfl, Or.inr rfl⟩
          · exact ⟨_, rfl, Or.inr rfl⟩
    · next h1 h2 => exact absurd (not_not.mp h1) h2

lemma applyEvents_nonce_mono {Key : Type} (evs : List (StoreEvent Key))
    (st : ServerState Key) (n : Bytes) (h : n ∈ st.nonceStore) :
    n ∈ (applyEvents st evs).nonceStore := by
  induction evs generalizing st with
  | nil => exact h
  | cons ev evs ih =>
    have h' : n ∈ (applyEvent st ev).nonceStore := by
      cases ev with
      | getKey i => exact h
      | insertKey i k => exact h
      | nonceExists m => exact h
      | nonceInsert m => exact List.mem_cons_of_mem m h
    exact ih (applyEvent st ev) h'

lemma redeemStep_nonce_mono {Key Blinded : Type} (cs : CipherSuite Key Blinded)
    (st : ServerState Key) (t : Token) (n : Bytes) (h : n ∈ st.nonceStore) :
    n ∈ (redeemStep cs st t).2.nonceStore :=
  applyEvents_nonce_mono _ st n h

lemma redeemMany_nonce_mono {Key Blinded : Type} (cs : CipherSuite Key Blinded)
    (st : ServerState Key) (ts : List Token) (n : Bytes) (h : n ∈ st.nonceStore) :
    n ∈ (redeemMany cs st ts).nonceStore := by
  induction ts generalizing st with
  | nil => exact h
  | cons t ts ih => exact ih _ (redeemStep_nonce_mono cs st t n h)

lemma redeem_ok_events {Key Blinded : Type} (cs : CipherSuite Key Blinded)
    (st : ServerState Key) (t : Token)
    (h : (redeemToken cs st t).1 = Except.ok ()) :
    t.nonce ∉ st.nonceStore ∧
    (redeemToken cs st t).2 =
      [StoreEvent.nonceExists t.nonce, StoreEvent.getKey t.token_key_id,
        StoreEvent.nonceInsert t.nonce] := by
  by_cases c1 : t.token_type ≠ TokenType.Batched
  · simp [redeemToken, c1] at h
  · by_cases c2 : t.authenticator.length ≠ cs.hashOutputSize
    · simp [redeemToken, c1, c2] at h
    · by_cases c3 : t.nonce.length = 32
      · by_cases c4 : t.nonce ∈ st.nonceStore
        · simp [redeemToken, c1, c2, c3, c4] at h
        · cases hk : st.keyStore t.token_key_id with
          | none => simp [redeemToken, c1, c2, c3, c4, hk] at h
          | some server =>
            cases he : cs.evaluate server (cs.serializeTokenInput
                ⟨t.token_type, t.nonce, t.challenge_digest, t.token_key_id⟩) with
            | none => simp [redeemToken, c1, c2, c3, c4, hk, he] at h
            | some auth =>
              by_cases c6 : t.authenticator = auth
              · have hlen : auth.length = cs.hashOutputSize := by
                  rw [← c6]; exact not_not.mp c2
                exact ⟨c4, by simp [redeemToken, c1, c2, c3, c4, hk, he, c6, hlen]⟩
              · simp [redeemToken, c1, c2, c3, c4, hk, he, c6] at h
      · simp [redeemToken, c1, c2, c3] at h

lemma redeem_spent_shape_double_spending {Key Blinded : Type}
    (cs : CipherSuite Key Blinded) (st : ServerState Key) (t : Token)
    (ha : t.token_type = TokenType.Batched)
    (hb : t.authenticator.length = cs.hashOutputSize)
    (hc : t.nonce.length = 32)
    (hmem : t.nonce ∈ st.nonceStore) :
    (redeemToken cs st t).1 = Except.error RedeemTokenError.DoubleSpending := by
  simp [redeemToken, ha, hb, hc, hmem]

lemma redeem_spent_is_error {Key Blinded : Type} (cs : CipherSuite Key Blinded)
    (st : ServerState Key) (t : Token) (hmem : t.nonce ∈ st.nonceStore) :
    ∃ e, (redeemToken cs st t).1 = Except.error e := by
  by_cases c1 : t.token_type ≠ TokenType.Batched
  · exact ⟨RedeemTokenError.InvalidToken, by simp [redeemToken, c1]⟩
  · by_cases c2 : t.authenticator.length ≠ cs.hashOutputSize
    · exact ⟨RedeemTokenError.InvalidToken, by simp [redeemToken, c1, c2]⟩
    · by_cases c3 : t.nonce.length = 32
      · exact ⟨RedeemTokenError.DoubleSpending,
          by simp [redeemToken, c1, c2, c3, hmem]⟩
      · exact ⟨RedeemTokenError.InvalidToken, by simp [redeemToken, c1, c2, c3]⟩

/-! Concrete fixtures for witnesses and counterexamples. -/

/-- A trivial concrete ciphersuite: hash output is empty, every blinded
element parses, batch evaluation yields no messages and an empty proof,
direct evaluation yields the empty authenticator. -/
def csW : CipherSuite Unit Unit where
  hashOutputSize := 0
  deserializeBlindedElem := fun _ => some ()
  batchBlindEvaluate := fun _ _ => some ([], [])
  evaluate := fun _ _ => some []
  serializeTokenInput := fun _ => []

def ksW : Nat → Option Unit := fun _ => some ()

def ksNone : Nat → Option Unit := fun _ => none

def stW : ServerState Unit := ⟨ksW, []⟩

def stNone : ServerState Unit := ⟨ksNone, []⟩

def nonceW : Bytes := List.replicate 32 0

/-- A state whose nonce store already contains nonceW and whose key store
is empty. -/
def stSpent : ServerState Unit := ⟨ksNone, [nonceW]⟩

def tokW : Token := ⟨TokenType.Batched, nonceW, [], 0, []⟩

def tokWrongType : Token := ⟨TokenType.Private, nonceW, [], 0, []⟩

def reqW : TokenRequest := ⟨TokenType.Batched, 0, []⟩

def reqWrongType : TokenRequest := ⟨TokenType.Private, 0, []⟩

def respW : TokenResponse := ⟨[], List.replicate 64 0⟩

def respWBytes : Bytes := [0, 0] ++ List.replicate 64 0

/-! Claim theorems. -/

/-- C1 counterexample: the claim fails as stated.  After tokW is redeemed
successfully, a second call with tokWrongType, which carries the very same
nonce but a non-Batched token type, returns InvalidToken rather than
DoubleSpending: the type check precedes the nonce check. -/
theorem redeem_same_nonce_counterexample :
    (redeemToken csW stW tokW).1 = Except.ok () ∧
    tokWrongType.nonce = tokW.nonce ∧
    (redeemToken csW (redeemStep csW stW tokW).2 tokWrongType).1
      = Except.error RedeemTokenError.InvalidToken :=
  ⟨rfl, rfl, rfl⟩

/-- C1 (amended): after a successful redemption of a token, its nonce is
spent forever: any later call (after arbitrary further redemptions) whose
token carries the same nonce and passes the token-type,
authenticator-length and nonce-size checks returns DoubleSpending, and any
later call whose token carries the same nonce returns some error, never
success. -/
theorem redeem_spent_nonce_rejected {Key Blinded : Type} (cs : CipherSuite Key Blinded)
    (st : ServerState Key) (t1 : Token) (ts : List Token) (t2 t3 : Token)
    (h1 : (redeemToken cs st t1).1 = Except.ok ())
    (hn2 : t2.nonce = t1.nonce)
    (h2a : t2.token_type = TokenType.Batched)
    (h2b : t2.authenticator.length = cs.hashOutputSize)
    (h2c : t2.nonce.length = 32)
    (hn3 : t3.nonce = t1.nonce) :
    (redeemToken cs (redeemMany cs (redeemStep cs st t1).2 ts) t2).1
        = Except.error RedeemTokenError.DoubleSpending ∧
    ∃ e, (redeemToken cs (redeemMany cs (redeemStep cs st t1).2 ts) t3).1
        = Except.error e := by
  obtain ⟨-, hev⟩ := redeem_ok_events cs st t1 h1
  have hmem1 : t1.nonce ∈ (redeemStep cs st t1).2.nonceStore := by
    show t1.nonce ∈ (applyEvents st (redeemToken cs st t1).2).nonceStore
    rw [hev]
    exact List.mem_cons_self _ _
  have hmemL : t1.nonce ∈ (redeemMany cs (redeemStep cs st t1).2 ts).nonceStore :=
    redeemMany_nonce_mono cs _ ts t1.nonce hmem1
  constructor
  · exact redeem_spent_shape_double_spending cs _ t2 h2a h2b h2c (hn2 ▸ hmemL)
  · exact redeem_spent_is_error cs _ t3 (hn3 ▸ hmemL)

/-- Witness for C1 (amended): concrete successful redemption followed by
an intervening redemption attempt and a repeat of the same token. -/
theorem redeem_spent_nonce_rejected_witness :
    (redeemToken csW (redeemMany csW (redeemStep csW stW tokW).2 [tokW]) tokW).1
        = Except.error RedeemTokenError.DoubleSpending ∧
    ∃ e, (redeemToken csW (redeemMany csW (redeemStep csW stW tokW).2 [tokW]) tokW).1
        = Except.error e :=
  redeem_spent_nonce_rejected csW stW tokW [tokW] tokW tokW rfl rfl rfl rfl rfl rfl

/-- C2: redeem_token changes no store state except on the success path:
either the call leaves the state exactly as it was, or it returned Ok and
then the recomputed authenticator for the token's key equals the supplied
one and the only change is the insertion of the token's nonce.  In
particular every error return leaves the nonce store unchanged. -/
theorem redeem_state_change_only_on_ok {Key Blinded : Type}
    (cs : CipherSuite Key Blinded) (st : ServerState Key) (token : Token) :
    ((redeemToken cs st token).1 = Except.ok () ∨ (redeemStep cs st token).2 = st) ∧
    ((redeemStep cs st token).2 = st ∨
      ((redeemToken cs st token).1 = Except.ok () ∧
        (∃ server, st.keyStore token.token_key_id = some server ∧
          cs.evaluate server (cs.serializeTokenInput
            ⟨token.token_type, token.nonce, token.challenge_digest, token.token_key_id⟩)
            = some token.authenticator) ∧
        (redeemStep cs st token).2.nonceStore = token.nonce :: st.nonceStore)) := by
  by_cases c1 : token.token_type ≠ TokenType.Batched
  · have hst : (redeemStep cs st token).2 = st := by
      simp [redeemStep, redeemToken, c1, applyEvents]
    exact ⟨Or.inr hst, Or.inl hst⟩
  · by_cases c2 : token.authenticator.length ≠ cs.hashOutputSize
    · have hst : (redeemStep cs st token).2 = st := by
        simp [redeemStep, redeemToken, c1, c2, applyEvents]
      exact ⟨Or.inr hst, Or.inl hst⟩
    · by_cases c3 : token.nonce.length = 32
      · by_cases c4 : token.nonce ∈ st.nonceStore
        · have hst : (redeemStep cs st token).2 = st := by
            simp [redeemStep, redeemToken, c1, c2, c3, c4, applyEvents, applyEvent]
          exact ⟨Or.inr hst, Or.inl hst⟩
        · cases hk : st.keyStore token.token_key_id with
          | none =>
            have hst : (redeemStep cs st token).2 = st := by
              simp [redeemStep, redeemToken, c1, c2, c3, c4, hk, applyEvents, applyEvent]
            exact ⟨Or.inr hst, Or.inl hst⟩
          | some server =>
            cases he : cs.evaluate server (cs.serializeTokenInput
                ⟨token.token_type, token.nonce, token.challenge_digest,
                  token.token_key_id⟩) with
            | none =>
              have hst : (redeemStep cs st token).2 = st := by
                simp [redeemStep, redeemToken, c1, c2, c3, c4, hk, he,
                  applyEvents, applyEvent]
              exact ⟨Or.inr hst, Or.inl hst⟩
            | some auth =>
              by_cases c6 : token.authenticator = auth
              · have hlen : auth.length = cs.hashOutputSize := by
                  rw [← c6]; exact not_not.mp c2
                have hok : (redeemToken cs st token).1 = Except.ok () := by
                  simp [redeemToken, c1, c2, c3, c4, hk, he, c6, hlen]
                have hns : (redeemStep cs st token).2.nonceStore
                    = token.nonce :: st.nonceStore := by
                  simp [redeemStep, redeemToken, c1, c2, c3, c4, hk, he, c6, hlen,
                    applyEvents, applyEvent]
                refine ⟨Or.inl hok, Or.inr ⟨hok, ⟨server, hk ▸ rfl, ?_⟩, hns⟩⟩
                rw [c6]; exact he
              · have hst : (redeemStep cs st token).2 = st := by
                  simp [redeemStep, redeemToken, c1, c2, c3, c4, hk, he, c6,
                    applyEvents, applyEvent]
                exact ⟨Or.inr hst, Or.inl hst⟩
      · have hst : (redeemStep cs st token).2 = st := by
          simp [redeemStep, redeemToken, c1, c2, c3, applyEvents]
        exact ⟨Or.inr hst, Or.inl hst⟩

/-- C3 counterexample: the claim fails as stated.  respWBytes is the
exact serialization of the TokenResponse respW, yet try_from_bytes on
respWBytes with a trailing byte appended succeeds instead of failing with
InvalidData: the unconsumed suffix is ignored. -/
theorem tryFromBytes_trailing_counterexample :
    TokenResponse.tlsSerialize respW = some respWBytes ∧
    TokenResponse.tryFromBytes (respWBytes ++ [7]) = Except.ok respW :=
  ⟨rfl, rfl⟩

/-- C3 (amended): try_from_bytes is a plain streaming decode, not a
total-consumption decode: on any byte string that begins with the
well-formed encoding of a TokenResponse it succeeds and returns that
response, leaving any trailing bytes uninspected; InvalidData is returned
only when no well-formed encoding is a usable head of the input. -/
theorem tryFromBytes_ignores_trailing (resp : TokenResponse) (bs rest : Bytes)
    (hw : resp.wf) (hs : TokenResponse.tlsSerialize resp = some bs) :
    TokenResponse.tryFromBytes (bs ++ rest) = Except.ok resp := by
  rw [TokenResponse.tryFromBytes, tokenResponse_deserialize_append resp bs rest hw hs]

/-- Witness for C3 (amended) at the concrete fixture response with one
trailing byte. -/
theorem tryFromBytes_ignores_trailing_witness :
    TokenResponse.tryFromBytes (respWBytes ++ [7]) = Except.ok respW :=
  tryFromBytes_ignores_trailing respW respWBytes [7] (by decide) rfl

/-- C4 is a code bug, evaluated here at the failing input: for the empty
batched request, the Size impl reports 3 bytes (2-byte type + 1-byte key
id + 0 element bytes, omitting the vector length header), while Serialize
actually writes 5 bytes (the same fields plus the 2-byte length header of
the blinded_elements vector). -/
theorem tokenRequest_size_mismatch :
    TokenRequest.tlsSerializedLen reqW = 3 ∧
    TokenRequest.tlsSerialize reqW = some [249, 26, 0, 0, 0] ∧
    ([249, 26, 0, 0, 0] : Bytes).length = 5 :=
  ⟨rfl, rfl, rfl⟩

/-- C5: round trip.  For every Rust-representable TokenRequest and
TokenResponse whose serialization succeeds, deserializing the produced
bytes returns the original value and consumes the whole input. -/
theorem codec_round_trip (req : TokenRequest) (resp : TokenResponse) (breq bresp : Bytes)
    (hwq : req.wf) (hsq : TokenRequest.tlsSerialize req = some breq)
    (hwp : resp.wf) (hsp : TokenResponse.tlsSerialize resp = some bresp) :
    TokenRequest.tlsDeserialize breq = some (req, []) ∧
    TokenResponse.tlsDeserialize bresp = some (resp, []) := by
  constructor
  · have h := tokenRequest_deserialize_append req breq [] hwq hsq
    simpa using h
  · have h := tokenResponse_deserialize_append resp bresp [] hwp hsp
    simpa using h

/-- Witness for C5 at the concrete fixtures. -/
theorem codec_round_trip_witness :
    TokenRequest.tlsDeserialize [249, 26, 0, 0, 0] = some (reqW, []) ∧
    TokenResponse.tlsDeserialize respWBytes = some (respW, []) :=
  codec_round_trip reqW respW [249, 26, 0, 0, 0] respWBytes
    (by decide) rfl (by decide) rfl

/-- C6: a request whose token type is not Batched is rejected with
InvalidTokenType and the call performs no store interaction at all; in
particular the key store is never queried, whatever the key id and the
blinded elements are. -/
theorem issue_wrong_type_rejected {Key Blinded : Type} (cs : CipherSuite Key Blinded)
    (ks : Nat → Option Key) (req : TokenRequest)
    (h : req.token_type ≠ TokenType.Batched) :
    issueTokenResponse cs ks req =
      some (Except.error IssueTokenResponseError.InvalidTokenType, []) := by
  unfold issueTokenResponse
  rw [if_pos h]

/-- Witness for C6 at a concrete non-Batched request. -/
theorem issue_wrong_type_rejected_witness :
    issueTokenResponse csW ksW reqWrongType =
      some (Except.error IssueTokenResponseError.InvalidTokenType, []) :=
  issue_wrong_type_rejected csW ksW reqWrongType (by decide)

/-- C7 counterexample: the claim fails as stated.  reqWrongType references
key id 0, which was never inserted into the empty key store ksNone, yet
issue_token_response returns InvalidTokenType, not KeyIdNotFound: the
token-type guard fires before the key lookup. -/
theorem unknown_key_counterexample :
    issueTokenResponse csW ksNone reqWrongType =
      some (Except.error IssueTokenResponseError.InvalidTokenType, []) :=
  rfl

/-- C7 (amended): an issuance request of the Batched type whose key id is
absent from the key store yields KeyIdNotFound, and a redemption token
that passes the type, authenticator-length and nonce-size checks, whose
nonce is unspent and whose key id is absent from the key store yields
KeyIdNotFound. -/
theorem key_id_not_found {Key Blinded : Type} (cs : CipherSuite Key Blinded)
    (ks : Nat → Option Key) (st : ServerState Key) (req : TokenRequest) (token : Token)
    (hreq : req.token_type = TokenType.Batched)
    (hk1 : ks req.token_key_id = none)
    (hta : token.token_type = TokenType.Batched)
    (htb : token.authenticator.length = cs.hashOutputSize)
    (htc : token.nonce.length = 32)
    (htm : token.nonce ∉ st.nonceStore)
    (hk2 : st.keyStore token.token_key_id = none) :
    issueTokenResponse cs ks req
        = some (Except.error IssueTokenResponseError.KeyIdNotFound,
            [StoreEvent.getKey req.token_key_id]) ∧
    (redeemToken cs st token).1 = Except.error RedeemTokenError.KeyIdNotFound := by
  constructor
  · simp [issueTokenResponse, hreq, hk1]
  · simp [redeemToken, hta, htb, htc, htm, hk2]

/-- Witness for C7 (amended) against the empty key store. -/
theorem key_id_not_found_witness :
    issueTokenResponse csW ksNone reqW
        = some (Except.error IssueTokenResponseError.KeyIdNotFound,
            [StoreEvent.getKey reqW.token_key_id]) ∧
    (redeemToken csW stNone tokW).1 = Except.error RedeemTokenError.KeyIdNotFound :=
  key_id_not_found csW ksNone stNone reqW tokW rfl rfl rfl rfl rfl
    (by decide) rfl

/-- C8: issuance is stateless.  Whatever the outcome, replaying the store
interactions of an issue_token_response call against the state it ran in
gives back exactly that state: the key store and the nonce store are
unchanged. -/
theorem issue_leaves_stores_unchanged {Key Blinded : Type}
    (cs : CipherSuite Key Blinded) (st : ServerState Key) (req : TokenRequest) :
    ((issueTokenResponse cs st.keyStore req).map fun out => applyEvents st out.2)
      = some st := by
  obtain ⟨out, hout, hev⟩ := issueTokenResponse_shape cs st.keyStore req
  rw [hout]
  rcases hev with h | h <;> simp [h, applyEvents, applyEvent]

/-- C9: the double-spend check precedes the key lookup.  A token that
passes the type, authenticator-length and nonce-size checks and whose
nonce is already spent is rejected with DoubleSpending even when its key
id is absent from the key store. -/
theorem double_spend_precedes_key_lookup {Key Blinded : Type}
    (cs : CipherSuite Key Blinded) (st : ServerState Key) (token : Token)
    (ha : token.token_type = TokenType.Batched)
    (hb : token.authenticator.length = cs.hashOutputSize)
    (hc : token.nonce.length = 32)
    (hmem : token.nonce ∈ st.nonceStore)
    (hk : st.keyStore token.token_key_id = none) :
    (redeemToken cs st token).1 = Except.error RedeemTokenError.DoubleSpending :=
  redeem_spent_shape_double_spending cs st token ha hb hc hmem

/-- Witness for C9: spent nonce and empty key store. -/
theorem double_spend_precedes_key_lookup_witness :
    (redeemToken csW stSpent tokW).1 = Except.error RedeemTokenError.DoubleSpending :=
  double_spend_precedes_key_lookup csW stSpent tokW rfl rfl rfl
    (by simp [stSpent, tokW]) rfl

/-- C10: the assertion in issue_token_response is unreachable in the
failing direction: for every input the call returns a value (the branch
modelling an assertion panic is never taken), because the guard has
already returned InvalidTokenType for every non-Batched type. -/
theorem issue_assertion_never_fails {Key Blinded : Type}
    (cs : CipherSuite Key Blinded) (ks : Nat → Option Key) (req : TokenRequest) :
    (issueTokenResponse cs ks req).isSome = true := by
  obtain ⟨out, hout, -⟩ := issueTokenResponse_shape cs ks req
  rw [hout]
  rfl

end PrivacyPass
